import Mathlib

/-!
Verification of the EXIF metadata reader/writer
(`src/ExifMetadataManager.ts` of EzraMarks/obsidian-image-converter).

The TypeScript source is shallowly embedded as follows.

* A piexif metadata container (`piexif.ExifDict`) is a JavaScript object
  mapping section names (e.g. `"Exif"`) to objects mapping integer tag ids
  to values that are strings, numbers or byte arrays.  We model it as an
  association list with JavaScript-object lookup/assignment semantics
  (lookup of the first matching key; assignment replaces the value of an
  existing key in place, otherwise appends a new entry).
* JavaScript strings become Lean `String` (lists of characters); the string
  operations used by the source (`startsWith`, `substring`, `split`,
  `trim`, `replace`, `match` against the two regexes appearing in the
  source) are implemented character by character below, following
  ECMAScript semantics (the `\s`, `.`, multiline `^`/`$` and `trim`
  character classes are spelled out explicitly).
* JavaScript truthiness of a tag value ("" , 0 are falsy; any array is
  truthy) is `truthyTag` below.
* The reader `extractExifDateAndFilename` wraps its whole body in
  `try/catch`; failure of the external byte-read / base64 / `piexif.load`
  pipeline, and the `TypeError` raised by calling `.split` on a non-string
  date value, are the only possible exceptions.  We model the external
  pipeline result as `Except Unit ExifDict` and the date step as an
  `Except`-valued function; the surrounding catch returns empty strings.
-/

/-- A piexif tag value: the source handles strings (the only case it uses
structurally), and treats any non-string value (numbers, byte arrays) via
`typeof x === "string"` checks. -/
inductive TagValue where
  | str (s : String)
  | num (n : Int)
  | bytes (bs : List Nat)
  deriving DecidableEq

/-- One metadata section (IFD): a JavaScript object keyed by integer tag id. -/
abbrev ExifSection := List (Nat × TagValue)

/-- A parsed metadata container: a JavaScript object keyed by section name. -/
abbrev ExifDict := List (String × ExifSection)

/-- `piexif.ExifIFD.DateTimeOriginal` -/
def DateTimeOriginal : Nat := 36867

/-- `piexif.ExifIFD.UserComment` -/
def UserComment : Nat := 37510

/-- JavaScript object property read, first matching key. -/
def lookupTag : ExifSection → Nat → Option TagValue
  | [], _ => none
  | (t, v) :: rest, t' => if t = t' then some v else lookupTag rest t'

/-- JavaScript object property read, first matching key. -/
def lookupSection : ExifDict → String → Option ExifSection
  | [], _ => none
  | (n, s) :: rest, n' => if n = n' then some s else lookupSection rest n'

/-- JavaScript object property assignment: replace the value of an existing
key, else append a new entry. -/
def setTag : ExifSection → Nat → TagValue → ExifSection
  | [], t, v => [(t, v)]
  | (t', v') :: rest, t, v =>
    if t' = t then (t, v) :: rest else (t', v') :: setTag rest t v

/-- JavaScript object property assignment: replace the value of an existing
key, else append a new entry. -/
def setSection : ExifDict → String → ExifSection → ExifDict
  | [], n, s => [(n, s)]
  | (n', s') :: rest, n, s =>
    if n' = n then (n, s) :: rest else (n', s') :: setSection rest n s

/-- JavaScript truthiness of a tag value: `""` and `0` are falsy, every
array (even empty) is truthy. -/
def truthyTag : TagValue → Bool
  | TagValue.str s => !(s == "")
  | TagValue.num n => !(n == 0)
  | TagValue.bytes _ => true

/-- Truthiness of a possibly-missing (`undefined`) value. -/
def truthyOpt : Option TagValue → Bool
  | none => false
  | some v => truthyTag v

/-- Is the value a string (`typeof x === "string"`). -/
def TagValue.isStr : TagValue → Bool
  | TagValue.str _ => true
  | _ => false

/-- `metadata?.Exif?.[piexif.ExifIFD.DateTimeOriginal]` -/
def dateLookup (d : ExifDict) : Option TagValue :=
  (lookupSection d "Exif").bind (fun s => lookupTag s DateTimeOriginal)

/-- `exifObj?.Exif?.[piexif.ExifIFD.UserComment]` -/
def commentLookup (d : ExifDict) : Option TagValue :=
  (lookupSection d "Exif").bind (fun s => lookupTag s UserComment)

/-! ### JavaScript string primitives -/

/-- The ECMAScript line terminators (`LineTerminator`): LF, CR, LS, PS.
These delimit lines for the multiline anchors `^`/`$` and are excluded
from `.`. -/
def lineTerm (c : Char) : Bool :=
  c = '\n' || c = '\r' || c = '\u2028' || c = '\u2029'

/-- The ECMAScript whitespace class used by `\s` and `String.prototype.trim`:
WhiteSpace plus LineTerminator. -/
def jsWS (c : Char) : Bool :=
  c = ' ' || c = '\t' || c = '\n' || c = '\x0b' || c = '\x0c' || c = '\r' ||
  c = '\u00a0' || c = '\u1680' || (0x2000 ≤ c.toNat && c.toNat ≤ 0x200a) ||
  c = '\u2028' || c = '\u2029' || c = '\u202f' || c = '\u205f' ||
  c = '\u3000' || c = '\ufeff'

/-- `String.prototype.trim` on a character list. -/
def jsTrimList (l : List Char) : List Char :=
  ((l.dropWhile jsWS).reverse.dropWhile jsWS).reverse

/-- `s.startsWith(p)` -/
def jsStartsWith (s p : String) : Bool :=
  p.data.isPrefixOf s.data

/-- `s.substring(n)` -/
def jsSubstrFrom (s : String) (n : Nat) : String :=
  String.mk (s.data.drop n)

/-- `s.split(sep)` for a single-character separator, ECMAScript semantics
(`"".split(sep)` is `[""]`). -/
def jsSplitChar (sep : Char) : List Char → List (List Char)
  | [] => [[]]
  | c :: rest =>
    if c = sep then [] :: jsSplitChar sep rest
    else
      match jsSplitChar sep rest with
      | p :: ps => (c :: p) :: ps
      | [] => [[c]]

/-- `s.split(/\r?\n/)`: every `'\n'` is a separator, absorbing an
immediately preceding `'\r'`. -/
def splitJsLines : List Char → List (List Char)
  | [] => [[]]
  | c :: rest =>
    if c = '\n' then [] :: splitJsLines rest
    else if c = '\r' ∧ rest.head? = some '\n' then splitJsLines rest
    else
      match splitJsLines rest with
      | p :: ps => (c :: p) :: ps
      | [] => [[c]]

/-! ### The comment-field codec (shared by reader and writer) -/

/-- The fixed 8-byte character-set marker `"ASCII\0\0\0"` that the EXIF
convention prepends to `UserComment` values. -/
def charsetMarker : String := "ASCII\x00\x00\x00"

/-- Decoding of a raw `UserComment` value, exactly as both the reader and
the writer do it: a string starting with the marker is stripped of its
first 8 characters, any other string is taken as-is, and a missing or
non-string value yields the empty text. -/
def decodeComment : Option TagValue → String
  | some (TagValue.str s) =>
    if jsStartsWith s charsetMarker then jsSubstrFrom s 8 else s
  | _ => ""

/-! ### The writer `encodeOriginalFilename` -/

/-- The presence test of the writer:
`commentText.split(/\r?\n/).some(line => line.trim().startsWith("OriginalFilename"))`. -/
def hasAnnotationLine (text : String) : Bool :=
  (splitJsLines text.data).any
    (fun l => "OriginalFilename".data.isPrefixOf (jsTrimList l))

/-- Step 4 of the writer:
`commentText ? commentText + "\nOriginalFilename: " + fileName : "OriginalFilename: " + fileName`. -/
def appendAnnotationLine (commentText fileName : String) : String :=
  if commentText = "" then "OriginalFilename: " ++ fileName
  else commentText ++ "\n" ++ "OriginalFilename: " ++ fileName

/-- `ExifMetadataManager.encodeOriginalFilename(fileName, metadata)`, as a
function on containers (the source mutates `metadata` in place and both
assignments happen together inside the final `if`).  The source's local
constants `exif := metadata?.["Exif"] ?? {}` and
`commentText := decodeComment(exif[userCommentTag])` are inlined. -/
def encodeOriginalFilename (fileName : String) (metadata : ExifDict) : ExifDict :=
  if truthyOpt (dateLookup metadata) = false ∨ fileName = "" then metadata
  else if hasAnnotationLine
      (decodeComment (lookupTag ((lookupSection metadata "Exif").getD []) UserComment)) then
    metadata
  else
    setSection metadata "Exif"
      (setTag ((lookupSection metadata "Exif").getD []) UserComment
        (TagValue.str (charsetMarker ++
          appendAnnotationLine
            (decodeComment (lookupTag ((lookupSection metadata "Exif").getD []) UserComment))
            fileName)))

/-! ### The reader `extractExifDateAndFilename` -/

/-- `exifDate.split(' ')[0]?.replace(/:/g, '-')` for a string date value. -/
def dateTransform (s : String) : String :=
  String.mk (((jsSplitChar ' ' s.data).headD []).map
    (fun c => if c = ':' then '-' else c))

/-- The date step of the reader: `if (exifDate) dateTaken = exifDate.split(' ')[0]?.replace(/:/g, '-')`.
A falsy value (`undefined`, `""`, `0`) leaves `dateTaken` empty; a truthy
non-string value has no `.split` method, raising a `TypeError` that the
surrounding catch turns into empty results. -/
def dateStep : Option TagValue → Except Unit String
  | none => Except.ok ""
  | some (TagValue.str s) => Except.ok (if s = "" then "" else dateTransform s)
  | some (TagValue.num n) => if n = 0 then Except.ok "" else Except.error ()
  | some (TagValue.bytes _) => Except.error ()

/-- The regex `/^OriginalFilename:\s*(.+)$/m`, group 1: the literal label. -/
def annTag : List Char := "OriginalFilename:".data

/-- Matching `\s*(.+)$` at a position (ECMAScript semantics: `\s*` is
greedy with backtracking, `.` excludes line terminators, `$` is multiline
so it asserts end of input or a following line terminator). Returns the
text captured by `(.+)`. -/
def tryTail : List Char → Option (List Char)
  | [] => none
  | c :: cs =>
    if jsWS c then
      match tryTail cs with
      | some cap => some cap
      | none =>
        if lineTerm c then none
        else some ((c :: cs).takeWhile (fun x => !(lineTerm x)))
    else some ((c :: cs).takeWhile (fun x => !(lineTerm x)))

/-- Attempting the whole pattern at a line-start position. -/
def tryAt (l : List Char) : Option (List Char) :=
  if annTag.isPrefixOf l then tryTail (l.drop annTag.length) else none

/-- Scanning the remaining positions: multiline `^` only matches right
after a line terminator, so only those positions are attempted, in order. -/
def scanTail : List Char → Option (List Char)
  | [] => none
  | c :: cs =>
    if lineTerm c then
      match tryAt cs with
      | some cap => some cap
      | none => scanTail cs
    else scanTail cs

/-- `commentText.match(/^OriginalFilename:\s*(.+)$/m)`, group 1 of the
first (leftmost) match. -/
def regexScan (l : List Char) : Option (List Char) :=
  match tryAt l with
  | some cap => some cap
  | none => scanTail l

/-- Group 1 of `commentText.match(/^OriginalFilename:\s*(.+)$/m)`. -/
def extractAnnotationText (s : String) : Option String :=
  (regexScan s.data).map String.mk

/-- The `originalFileName` the reader computes from a raw `UserComment`
value: decode, regex-match, `match[1].trim()` (empty when no match). -/
def readCommentFilename (v : Option TagValue) : String :=
  match extractAnnotationText (decodeComment v) with
  | some cap => String.mk (jsTrimList cap.data)
  | none => ""

/-- The body of the reader after a successful parse; the only remaining
exception is the date step's `TypeError`. -/
def extractFromDict (d : ExifDict) : Except Unit (String × String) :=
  match dateStep (dateLookup d) with
  | Except.error e => Except.error e
  | Except.ok dateTaken => Except.ok (dateTaken, readCommentFilename (commentLookup d))

/-- `extractExifDateAndFilename`: the argument is the result of the
external read-bytes / base64 / `piexif.load` pipeline; every exception is
caught and yields `{ dateTaken: "", originalFileName: "" }`. -/
def extractExifDateAndFilename : Except Unit ExifDict → String × String
  | Except.error _ => ("", "")
  | Except.ok d =>
    match extractFromDict d with
    | Except.ok r => r
    | Except.error _ => ("", "")

/-- Date normalization as the specification words it: the substring before
the first space, with every ':' replaced by '-'. -/
def specNormalizeDate (s : String) : String :=
  String.mk ((s.data.takeWhile (fun c => !(c = ' '))).map
    (fun c => if c = ':' then '-' else c))

/-- Claim-side predicate: the stored comment value does not start with the
8-byte character-set marker (a missing or non-string value vacuously lacks
it). -/
def lacksMarker : Option TagValue → Bool
  | some (TagValue.str s) => !(jsStartsWith s charsetMarker)
  | _ => true

/-! ### Association-list (JavaScript object) lemmas -/

theorem lookupTag_setTag_self : ∀ (sec : ExifSection) (t : Nat) (v : TagValue),
    lookupTag (setTag sec t v) t = some v
  | [], t, v => by simp [setTag, lookupTag]
  | (t', v') :: rest, t, v => by
    by_cases ht : t' = t
    · simp [setTag, ht, lookupTag]
    · simp only [setTag, if_neg ht, lookupTag, ht, ite_false]
      exact lookupTag_setTag_self rest t v

theorem lookupTag_setTag_ne : ∀ (sec : ExifSection) (t t' : Nat) (v : TagValue),
    t' ≠ t → lookupTag (setTag sec t v) t' = lookupTag sec t'
  | [], t, t', v, h => by
    simp [setTag, lookupTag, if_neg (Ne.symm h)]
  | (t₀, v₀) :: rest, t, t', v, h => by
    by_cases ht : t₀ = t
    · subst ht
      simp [setTag, lookupTag, if_neg (Ne.symm h)]
    · simp only [setTag, if_neg ht, lookupTag]
      by_cases ht' : t₀ = t'
      · simp [ht']
      · simp only [if_neg ht']
        exact lookupTag_setTag_ne rest t t' v h

theorem lookupSection_setSection_self : ∀ (d : ExifDict) (n : String) (s : ExifSection),
    lookupSection (setSection d n s) n = some s
  | [], n, s => by simp [setSection, lookupSection]
  | (n', s') :: rest, n, s => by
    by_cases hn : n' = n
    · simp [setSection, hn, lookupSection]
    · simp only [setSection, if_neg hn, lookupSection, hn, ite_false]
      exact lookupSection_setSection_self rest n s

theorem lookupSection_setSection_ne : ∀ (d : ExifDict) (n m : String) (s : ExifSection),
    m ≠ n → lookupSection (setSection d n s) m = lookupSection d m
  | [], n, m, s, h => by
    simp [setSection, lookupSection, if_neg (Ne.symm h)]
  | (n₀, s₀) :: rest, n, m, s, h => by
    by_cases hn : n₀ = n
    · subst hn
      simp [setSection, lookupSection, if_neg (Ne.symm h)]
    · simp only [setSection, if_neg hn, lookupSection]
      by_cases hm : n₀ = m
      · simp [hm]
      · simp only [if_neg hm]
        exact lookupSection_setSection_ne rest n m s h

theorem commentLookup_eq (c : ExifDict) :
    commentLookup c = lookupTag ((lookupSection c "Exif").getD []) UserComment := by
  unfold commentLookup
  cases lookupSection c "Exif" <;> simp [lookupTag]

theorem lookupSection_of_truthy {c : ExifDict} (h : truthyOpt (dateLookup c) = true) :
    ∃ sec, lookupSection c "Exif" = some sec := by
  unfold dateLookup at h
  cases hs : lookupSection c "Exif" with
  | none => rw [hs] at h; simp [truthyOpt] at h
  | some sec => exact ⟨sec, rfl⟩

/-! ### List helper lemmas -/

theorem isPrefixOf_self_append : ∀ (a b : List Char), a.isPrefixOf (a ++ b) = true
  | [], _ => by simp [List.isPrefixOf]
  | c :: a', b => by
    simp only [List.cons_append, List.isPrefixOf, beq_self_eq_true, Bool.true_and]
    exact isPrefixOf_self_append a' b

theorem dropWhile_append_nil {q : Char → Bool} : ∀ (a b : List Char),
    a.dropWhile q = [] → (a ++ b).dropWhile q = b.dropWhile q
  | [], _, _ => rfl
  | c :: a', b, h => by
    by_cases hc : q c
    · simp only [List.dropWhile, hc] at h ⊢
      exact dropWhile_append_nil a' b h
    · simp only [List.dropWhile, hc] at h
      exact absurd h (by simp)

theorem dropWhile_append_cons {q : Char → Bool} : ∀ (a b : List Char) (c : Char) (r : List Char),
    a.dropWhile q = c :: r → (a ++ b).dropWhile q = c :: (r ++ b)
  | [], b, c, r, h => by
    simp only [List.dropWhile_nil] at h
    exact absurd h (by simp)
  | x :: a', b, c, r, h => by
    by_cases hx : q x
    · simp only [List.dropWhile, hx] at h ⊢
      exact dropWhile_append_cons a' b c r h
    · simp only [List.dropWhile, hx] at h ⊢
      rw [List.cons.injEq] at h
      obtain ⟨hxc, har⟩ := h
      subst hxc
      subst har
      simp

/-! ### Line-splitting lemmas -/

theorem splitJsLines_ne_nil : ∀ l : List Char, splitJsLines l ≠ []
  | [] => by simp [splitJsLines]
  | c :: rest => by
    simp only [splitJsLines]
    split
    · simp
    · split
      · exact splitJsLines_ne_nil rest
      · split <;> simp

theorem splitJsLines_append_newline : ∀ (xs ys : List Char),
    ∃ p ps, splitJsLines (xs ++ '\n' :: ys) = p :: (ps ++ splitJsLines ys)
  | [], ys => ⟨[], [], by simp [splitJsLines]⟩
  | c :: xs', ys => by
    rw [List.cons_append]
    by_cases hc : c = '\n'
    · subst hc
      obtain ⟨p, ps, hp⟩ := splitJsLines_append_newline xs' ys
      refine ⟨[], p :: ps, ?_⟩
      simp only [splitJsLines, hp, List.cons_append]
      simp
    · by_cases hr : c = '\r' ∧ (xs' ++ '\n' :: ys).head? = some '\n'
      · obtain ⟨p, ps, hp⟩ := splitJsLines_append_newline xs' ys
        refine ⟨p, ps, ?_⟩
        simp only [splitJsLines, if_neg hc, if_pos hr]
        exact hp
      · obtain ⟨p, ps, hp⟩ := splitJsLines_append_newline xs' ys
        refine ⟨c :: p, ps, ?_⟩
        simp only [splitJsLines, if_neg hc, if_neg hr, hp]

theorem splitJsLines_clean_append : ∀ (xs r : List Char),
    (∀ c ∈ xs, c ≠ '\n' ∧ c ≠ '\r') →
    ∃ p ps, splitJsLines r = p :: ps ∧ splitJsLines (xs ++ r) = (xs ++ p) :: ps
  | [], r, _ => by
    cases h : splitJsLines r with
    | nil => exact absurd h (splitJsLines_ne_nil r)
    | cons p ps => exact ⟨p, ps, rfl, by simpa using h⟩
  | x :: xs', r, h => by
    obtain ⟨p, ps, hp, hap⟩ :=
      splitJsLines_clean_append xs' r (fun c hc => h c (List.mem_cons_of_mem _ hc))
    have hx := h x (List.mem_cons_self _ _)
    refine ⟨p, ps, hp, ?_⟩
    have hcond : ¬(x = '\r' ∧ (xs' ++ r).head? = some '\n') := fun hc => hx.2 hc.1
    rw [List.cons_append]
    simp only [splitJsLines, if_neg hx.1, if_neg hcond, hap]
    simp

/-! ### Trimming and the annotation label -/

theorem trim_label_pre (p : List Char) :
    "OriginalFilename".data.isPrefixOf (jsTrimList ("OriginalFilename: ".data ++ p)) = true := by
  unfold jsTrimList
  have h1 : "OriginalFilename: ".data.dropWhile jsWS = 'O' :: "riginalFilename: ".data := by
    decide
  rw [dropWhile_append_cons "OriginalFilename: ".data p 'O' "riginalFilename: ".data h1]
  have h2 : ('O' :: ("riginalFilename: ".data ++ p)) = "OriginalFilename: ".data ++ p := by
    rw [show "OriginalFilename: ".data = 'O' :: "riginalFilename: ".data by decide]
    simp
  rw [h2, List.reverse_append]
  cases hdrop : p.reverse.dropWhile jsWS with
  | nil =>
    rw [dropWhile_append_nil _ _ hdrop]
    rw [show ("OriginalFilename: ".data.reverse).dropWhile jsWS
        = "OriginalFilename:".data.reverse by decide]
    rw [List.reverse_reverse]
    decide
  | cons c r =>
    rw [dropWhile_append_cons _ _ _ _ hdrop]
    rw [List.reverse_cons, List.reverse_append, List.reverse_reverse]
    rw [show ("OriginalFilename: ".data) = "OriginalFilename".data ++ (':' :: [' ']) by decide]
    simp only [List.append_assoc]
    exact isPrefixOf_self_append _ _

theorem annTail_any (r : List Char) :
    (splitJsLines ("OriginalFilename: ".data ++ r)).any
      (fun l => "OriginalFilename".data.isPrefixOf (jsTrimList l)) = true := by
  obtain ⟨p, ps, _, hap⟩ := splitJsLines_clean_append "OriginalFilename: ".data r (by decide)
  rw [hap]
  simp only [List.any_cons, Bool.or_eq_true]
  left
  exact trim_label_pre p

theorem hasAnnotationLine_append (t fn : String) :
    hasAnnotationLine (appendAnnotationLine t fn) = true := by
  unfold hasAnnotationLine appendAnnotationLine
  by_cases ht : t = ""
  · rw [if_pos ht]
    rw [show ("OriginalFilename: " ++ fn).data = "OriginalFilename: ".data ++ fn.data from rfl]
    exact annTail_any fn.data
  · rw [if_neg ht]
    rw [show (t ++ "\n" ++ "OriginalFilename: " ++ fn).data
        = t.data ++ '\n' :: ("OriginalFilename: ".data ++ fn.data) by
      simp [String.data_append]]
    obtain ⟨p, ps, hsplit⟩ :=
      splitJsLines_append_newline t.data ("OriginalFilename: ".data ++ fn.data)
    rw [hsplit]
    simp only [List.any_cons, List.any_append, Bool.or_eq_true]
    right; right
    exact annTail_any fn.data

/-! ### Codec lemmas -/

theorem jsStartsWith_marker (t : String) :
    jsStartsWith (charsetMarker ++ t) charsetMarker = true := by
  unfold jsStartsWith
  rw [show (charsetMarker ++ t).data = charsetMarker.data ++ t.data from rfl]
  exact isPrefixOf_self_append _ _

theorem decodeComment_marker (t : String) :
    decodeComment (some (TagValue.str (charsetMarker ++ t))) = t := by
  show (if jsStartsWith (charsetMarker ++ t) charsetMarker = true
      then jsSubstrFrom (charsetMarker ++ t) 8 else (charsetMarker ++ t)) = t
  rw [if_pos (jsStartsWith_marker t)]
  unfold jsSubstrFrom
  rw [show (charsetMarker ++ t).data = charsetMarker.data ++ t.data from rfl]
  rw [show (8 : Nat) = charsetMarker.data.length from rfl, List.drop_left]

theorem decodeComment_nonstr {v : TagValue} (h : TagValue.isStr v = false) :
    decodeComment (some v) = "" := by
  cases v with
  | str s => simp [TagValue.isStr] at h
  | num n => rfl
  | bytes bs => rfl

/-! ### Writer case analysis -/

theorem enc_of_not_truthy {c : ExifDict} (fn : String)
    (h : truthyOpt (dateLookup c) = false) :
    encodeOriginalFilename fn c = c := by
  unfold encodeOriginalFilename
  rw [if_pos (Or.inl h)]

theorem enc_of_empty (c : ExifDict) : encodeOriginalFilename "" c = c := by
  unfold encodeOriginalFilename
  rw [if_pos (Or.inr rfl)]

theorem enc_of_hasAnn {c : ExifDict} (fn : String)
    (h : hasAnnotationLine
      (decodeComment (lookupTag ((lookupSection c "Exif").getD []) UserComment)) = true) :
    encodeOriginalFilename fn c = c := by
  unfold encodeOriginalFilename
  by_cases h1 : truthyOpt (dateLookup c) = false ∨ fn = ""
  · rw [if_pos h1]
  · rw [if_neg h1, if_pos h]

theorem enc_write {c : ExifDict} {fn : String}
    (h1 : truthyOpt (dateLookup c) = true) (h2 : fn ≠ "")
    (h3 : hasAnnotationLine
      (decodeComment (lookupTag ((lookupSection c "Exif").getD []) UserComment)) = false) :
    encodeOriginalFilename fn c =
      setSection c "Exif"
        (setTag ((lookupSection c "Exif").getD []) UserComment
          (TagValue.str (charsetMarker ++
            appendAnnotationLine
              (decodeComment (lookupTag ((lookupSection c "Exif").getD []) UserComment))
              fn))) := by
  unfold encodeOriginalFilename
  rw [if_neg, if_neg]
  · rw [h3]; simp
  · rintro (h | h)
    · rw [h1] at h; exact Bool.noConfusion h
    · exact h2 h

/-- After a successful write, the new container's `UserComment`. -/
theorem commentLookup_setSection (c : ExifDict) (sec : ExifSection) :
    commentLookup (setSection c "Exif" sec) = lookupTag sec UserComment := by
  unfold commentLookup
  rw [lookupSection_setSection_self]
  rfl

/-! ### Date-splitting lemmas -/

theorem jsSplitChar_ne_nil (sep : Char) : ∀ l : List Char, jsSplitChar sep l ≠ []
  | [] => by simp [jsSplitChar]
  | c :: rest => by
    simp only [jsSplitChar]
    split
    · simp
    · split <;> simp

theorem jsSplitChar_head (sep : Char) : ∀ l : List Char,
    (jsSplitChar sep l).headD [] = l.takeWhile (fun c => !(c = sep))
  | [] => rfl
  | c :: rest => by
    by_cases hc : c = sep
    · subst hc
      simp [jsSplitChar, List.takeWhile]
    · simp only [jsSplitChar, if_neg hc]
      cases hsp : jsSplitChar sep rest with
      | nil => exact absurd hsp (jsSplitChar_ne_nil sep rest)
      | cons p ps =>
        have ih := jsSplitChar_head sep rest
        rw [hsp] at ih
        simp only [List.headD_cons] at ih
        simp [List.takeWhile, hc, ← ih]

theorem dateTransform_eq_spec (s : String) : dateTransform s = specNormalizeDate s := by
  unfold dateTransform specNormalizeDate
  rw [jsSplitChar_head]

/-- Reduction of the reader on a successful parse. -/
theorem extractExifDateAndFilename_ok (d : ExifDict) :
    extractExifDateAndFilename (Except.ok d) =
      match extractFromDict d with
      | Except.ok r => r
      | Except.error _ => ("", "") := rfl

/-! ### Claims -/

/-- Claim C1 (counterexample): a container whose `Exif` section has the
`DateTimeOriginal` tag present but with the empty-string value (falsy in
JavaScript) and no `UserComment`. The writer's truthiness guard makes the
call a no-op, so the round trip yields `""`, not `"IMG_0001.jpg"`. -/
theorem c1_roundtrip_cex :
    dateLookup [("Exif", [(36867, TagValue.str "")])] = some (TagValue.str "") ∧
    commentLookup [("Exif", [(36867, TagValue.str "")])] = none ∧
    readCommentFilename (commentLookup
      (encodeOriginalFilename "IMG_0001.jpg" [("Exif", [(36867, TagValue.str "")])]))
      ≠ "IMG_0001.jpg" := by
  decide

/-- Claim C1 (amended): for every container whose `DateTimeOriginal` value
is present and truthy (non-empty string, nonzero number, or byte array)
and whose `UserComment` is absent, after `encodeOriginalFilename("IMG_0001.jpg", c)`
decoding the stored `UserComment` (stripping the marker) and matching the
annotation regex with trimming yields exactly `"IMG_0001.jpg"`. -/
theorem c1_roundtrip_amended (c : ExifDict) (v : TagValue)
    (hd : dateLookup c = some v) (ht : truthyTag v = true)
    (hc : commentLookup c = none) :
    readCommentFilename (commentLookup (encodeOriginalFilename "IMG_0001.jpg" c))
      = "IMG_0001.jpg" := by
  have h1 : truthyOpt (dateLookup c) = true := by rw [hd]; exact ht
  have hraw : lookupTag ((lookupSection c "Exif").getD []) UserComment = none := by
    rw [← commentLookup_eq]; exact hc
  have h3 : hasAnnotationLine
      (decodeComment (lookupTag ((lookupSection c "Exif").getD []) UserComment)) = false := by
    rw [hraw]; decide
  rw [enc_write h1 (by decide) h3, hraw, commentLookup_setSection, lookupTag_setTag_self]
  decide

/-- Witness for C1 at a concrete container with a truthy date tag. -/
theorem c1_roundtrip_witness :
    readCommentFilename (commentLookup (encodeOriginalFilename "IMG_0001.jpg"
      [("Exif", [(36867, TagValue.str "2021:07:04 10:00:00")])])) = "IMG_0001.jpg" :=
  c1_roundtrip_amended _ (TagValue.str "2021:07:04 10:00:00")
    (by decide) (by decide) (by decide)

/-- Claim C2: the writer is idempotent — calling it twice with the same
non-empty filename on the same container equals calling it once (so no
second annotation line is ever added). -/
theorem c2_idempotent (c : ExifDict) (fn : String) (hfn : fn ≠ "") :
    encodeOriginalFilename fn (encodeOriginalFilename fn c)
      = encodeOriginalFilename fn c := by
  by_cases h1 : truthyOpt (dateLookup c) = true
  · by_cases h3 : hasAnnotationLine
        (decodeComment (lookupTag ((lookupSection c "Exif").getD []) UserComment)) = true
    · rw [enc_of_hasAnn fn h3]
      exact enc_of_hasAnn fn h3
    · rw [Bool.not_eq_true] at h3
      rw [enc_write h1 hfn h3]
      apply enc_of_hasAnn
      rw [lookupSection_setSection_self, Option.getD_some, lookupTag_setTag_self,
        decodeComment_marker]
      exact hasAnnotationLine_append _ _
  · rw [Bool.not_eq_true] at h1
    rw [enc_of_not_truthy fn h1]
    exact enc_of_not_truthy fn h1

/-- Witness for C2 at a concrete container. -/
theorem c2_idempotent_witness :
    encodeOriginalFilename "IMG_0001.jpg" (encodeOriginalFilename "IMG_0001.jpg"
      [("Exif", [(36867, TagValue.str "2021:07:04 10:00:00")])])
    = encodeOriginalFilename "IMG_0001.jpg"
      [("Exif", [(36867, TagValue.str "2021:07:04 10:00:00")])] :=
  c2_idempotent _ _ (by decide)

/-- Claim C3 (counterexample): a container whose stored comment is the
unprefixed string `"OriginalFilename: old.jpg"` and whose date tag is a
truthy string. The idempotence check fires, the writer makes no change,
and the stored value still lacks the 8-byte marker after the call. -/
theorem c3_marker_cex :
    lacksMarker (commentLookup [("Exif", [(36867, TagValue.str "2021:07:04 10:00:00"),
      (37510, TagValue.str "OriginalFilename: old.jpg")])]) = true ∧
    lacksMarker (commentLookup (encodeOriginalFilename "new.jpg"
      [("Exif", [(36867, TagValue.str "2021:07:04 10:00:00"),
        (37510, TagValue.str "OriginalFilename: old.jpg")])])) = true := by
  decide

/-- Claim C3 (amended): for every container whose stored `UserComment`
value lacks the 8-byte marker, whose date tag is truthy, and whose decoded
comment has no line whose trimmed text starts with `"OriginalFilename"`,
one call with a non-empty filename stores a string value starting with the
marker. -/
theorem c3_marker_amended (c : ExifDict) (fn : String) (hfn : fn ≠ "")
    (h1 : truthyOpt (dateLookup c) = true)
    (_hold : lacksMarker (commentLookup c) = true)
    (h3 : hasAnnotationLine (decodeComment (commentLookup c)) = false) :
    ∃ s', commentLookup (encodeOriginalFilename fn c) = some (TagValue.str s') ∧
      jsStartsWith s' charsetMarker = true := by
  rw [commentLookup_eq] at h3
  rw [enc_write h1 hfn h3, commentLookup_setSection, lookupTag_setTag_self]
  exact ⟨_, rfl, jsStartsWith_marker _⟩

/-- Witness for C3 at a concrete container with an unrelated, unprefixed
comment. -/
theorem c3_marker_witness :
    ∃ s', commentLookup (encodeOriginalFilename "new.jpg"
      [("Exif", [(36867, TagValue.str "2021:07:04 10:00:00"),
        (37510, TagValue.str "Camera: X")])]) = some (TagValue.str s') ∧
      jsStartsWith s' charsetMarker = true :=
  c3_marker_amended _ _ (by decide) (by decide) (by decide) (by decide)

/-- Claim C4: with an empty filename, or with the date tag absent (in
particular when the whole `Exif` section is missing), the writer leaves
the container identical to its input — so in particular the comment tag is
untouched. -/
theorem c4_writer_noop (c : ExifDict) (fn : String)
    (h : fn = "" ∨ dateLookup c = none) :
    encodeOriginalFilename fn c = c := by
  rcases h with h | h
  · rw [h]; exact enc_of_empty c
  · exact enc_of_not_truthy fn (by rw [h]; rfl)

/-- Witness for C4 with an empty filename. -/
theorem c4_writer_noop_witness :
    encodeOriginalFilename "" [("Exif", [(36867, TagValue.str "2021:07:04 10:00:00")])]
      = [("Exif", [(36867, TagValue.str "2021:07:04 10:00:00")])] :=
  c4_writer_noop _ _ (Or.inl rfl)

/-- Claim C5: the spec's example — a container whose comment is
`"ASCII\0\0\0Camera: Canon\nOriginalFilename: old.jpg"` is left entirely
unchanged by `encodeOriginalFilename` with any filename (in particular
`"new.jpg"`); and in general, whenever the decoded comment already has an
annotation line, the writer never updates it. -/
theorem c5_preserve_first (c : ExifDict) (fn : String) :
    (commentLookup c = some (TagValue.str
        "ASCII\x00\x00\x00Camera: Canon\nOriginalFilename: old.jpg") →
      encodeOriginalFilename fn c = c) ∧
    (hasAnnotationLine (decodeComment (commentLookup c)) = true →
      encodeOriginalFilename fn c = c) := by
  have hgen : hasAnnotationLine (decodeComment (commentLookup c)) = true →
      encodeOriginalFilename fn c = c := by
    intro h
    rw [commentLookup_eq] at h
    exact enc_of_hasAnn fn h
  refine ⟨?_, hgen⟩
  intro h
  apply hgen
  rw [h]
  decide

/-- Witness for C5 at the spec's concrete container, with `"new.jpg"`. -/
theorem c5_preserve_first_witness :
    encodeOriginalFilename "new.jpg"
      [("Exif", [(36867, TagValue.str "2021:07:04 10:00:00"),
        (37510, TagValue.str "ASCII\x00\x00\x00Camera: Canon\nOriginalFilename: old.jpg")])]
      = [("Exif", [(36867, TagValue.str "2021:07:04 10:00:00"),
        (37510, TagValue.str "ASCII\x00\x00\x00Camera: Canon\nOriginalFilename: old.jpg")])] :=
  (c5_preserve_first _ "new.jpg").1 (by decide)

/-- Claim C6: the reader never raises — it is a total function here — and
whenever any step fails (the external byte-read/parse pipeline, or the
date step's `TypeError` inside the parsed container), it returns
`{ dateTaken: "", originalFileName: "" }`. -/
theorem c6_reader_fallback (parsed : Except Unit ExifDict)
    (h : parsed = Except.error () ∨
      ∃ d, parsed = Except.ok d ∧ extractFromDict d = Except.error ()) :
    extractExifDateAndFilename parsed = ("", "") := by
  rcases h with h | ⟨d, hd, hfail⟩
  · rw [h]
    rfl
  · rw [hd, extractExifDateAndFilename_ok, hfail]

/-- Witness for C6 at a failed parse. -/
theorem c6_reader_fallback_witness :
    extractExifDateAndFilename (Except.error ()) = ("", "") :=
  c6_reader_fallback (Except.error ()) (Or.inl rfl)

/-- Claim C7: for every container whose string date tag is
`"2021:07:04 10:00:00"` the reader yields `"2021-07-04"`; in general a
string date value is normalized to the substring before the first space
with `':'` replaced by `'-'` (stated via the independent
`specNormalizeDate`), and an absent date tag yields `""`. -/
theorem c7_date_normalization (d : ExifDict) :
    (dateLookup d = some (TagValue.str "2021:07:04 10:00:00") →
      (extractExifDateAndFilename (Except.ok d)).1 = "2021-07-04") ∧
    (∀ s, dateLookup d = some (TagValue.str s) →
      (extractExifDateAndFilename (Except.ok d)).1 = specNormalizeDate s) ∧
    (dateLookup d = none → (extractExifDateAndFilename (Except.ok d)).1 = "") := by
  have hgen : ∀ s, dateLookup d = some (TagValue.str s) →
      (extractExifDateAndFilename (Except.ok d)).1 = specNormalizeDate s := by
    intro s hs
    have hfd : extractFromDict d = Except.ok
        ((if s = "" then "" else dateTransform s), readCommentFilename (commentLookup d)) := by
      unfold extractFromDict
      rw [hs]
      rfl
    rw [extractExifDateAndFilename_ok, hfd]
    show (if s = "" then "" else dateTransform s) = specNormalizeDate s
    by_cases h0 : s = ""
    · subst h0
      decide
    · rw [if_neg h0, dateTransform_eq_spec]
  refine ⟨?_, hgen, ?_⟩
  · intro h
    rw [hgen _ h]
    decide
  · intro h
    have hfd : extractFromDict d = Except.ok ("", readCommentFilename (commentLookup d)) := by
      unfold extractFromDict
      rw [h]
      rfl
    rw [extractExifDateAndFilename_ok, hfd]

/-- Witness for C7 at a concrete container holding the spec's date. -/
theorem c7_date_normalization_witness :
    (extractExifDateAndFilename (Except.ok
      [("Exif", [(36867, TagValue.str "2021:07:04 10:00:00")])])).1 = "2021-07-04" :=
  (c7_date_normalization _).1 (by decide)

/-- Claim C8: a line starting with the bare label but without the colon,
such as `"OriginalFilenames backup"`, makes the writer a no-op (its
presence test needs no colon), yet the reader's regex (which requires the
colon) extracts no filename from the same comment. -/
theorem c8_label_no_colon (c : ExifDict) (fn : String)
    (h : commentLookup c = some (TagValue.str "OriginalFilenames backup")) :
    encodeOriginalFilename fn c = c ∧
    readCommentFilename (commentLookup c) = "" := by
  constructor
  · apply enc_of_hasAnn
    rw [← commentLookup_eq, h]
    decide
  · rw [h]
    decide

/-- Witness for C8 at a concrete container. -/
theorem c8_label_no_colon_witness :
    encodeOriginalFilename "new.jpg" [("Exif", [(36867, TagValue.str "2021:07:04 10:00:00"),
      (37510, TagValue.str "OriginalFilenames backup")])]
      = [("Exif", [(36867, TagValue.str "2021:07:04 10:00:00"),
        (37510, TagValue.str "OriginalFilenames backup")])] ∧
    readCommentFilename (commentLookup [("Exif", [(36867, TagValue.str "2021:07:04 10:00:00"),
      (37510, TagValue.str "OriginalFilenames backup")])]) = "" :=
  c8_label_no_colon _ "new.jpg" (by decide)

/-- Claim C9: the writer's frame — for every container and filename, every
section other than `"Exif"` is unchanged, and inside the `"Exif"` section
every tag other than `UserComment` is unchanged. -/
theorem c9_write_frame (c : ExifDict) (fn : String) :
    (∀ name, name ≠ "Exif" →
      lookupSection (encodeOriginalFilename fn c) name = lookupSection c name) ∧
    (∀ t, t ≠ UserComment →
      (lookupSection (encodeOriginalFilename fn c) "Exif").bind (fun s => lookupTag s t)
        = (lookupSection c "Exif").bind (fun s => lookupTag s t)) := by
  by_cases h1 : truthyOpt (dateLookup c) = true
  case neg =>
    rw [Bool.not_eq_true] at h1
    rw [enc_of_not_truthy fn h1]
    exact ⟨fun _ _ => rfl, fun _ _ => rfl⟩
  by_cases h2 : fn = ""
  · rw [h2, enc_of_empty]
    exact ⟨fun _ _ => rfl, fun _ _ => rfl⟩
  by_cases h3 : hasAnnotationLine
      (decodeComment (lookupTag ((lookupSection c "Exif").getD []) UserComment)) = true
  · rw [enc_of_hasAnn fn h3]
    exact ⟨fun _ _ => rfl, fun _ _ => rfl⟩
  rw [Bool.not_eq_true] at h3
  rw [enc_write h1 h2 h3]
  obtain ⟨sec, hsec⟩ := lookupSection_of_truthy h1
  constructor
  · intro name hname
    exact lookupSection_setSection_ne c "Exif" name _ hname
  · intro t ht
    rw [lookupSection_setSection_self, hsec, Option.getD_some]
    exact lookupTag_setTag_ne sec UserComment t _ ht

/-- Witness for C9: the `"0th"` section and the date tag survive a real
write. -/
theorem c9_write_frame_witness :
    lookupSection (encodeOriginalFilename "a.jpg"
      [("0th", [(271, TagValue.str "Canon")]),
       ("Exif", [(36867, TagValue.str "2021:07:04 10:00:00")])]) "0th"
      = lookupSection
      [("0th", [(271, TagValue.str "Canon")]),
       ("Exif", [(36867, TagValue.str "2021:07:04 10:00:00")])] "0th" ∧
    (lookupSection (encodeOriginalFilename "a.jpg"
      [("0th", [(271, TagValue.str "Canon")]),
       ("Exif", [(36867, TagValue.str "2021:07:04 10:00:00")])]) "Exif").bind
        (fun s => lookupTag s 36867)
      = (lookupSection
      [("0th", [(271, TagValue.str "Canon")]),
       ("Exif", [(36867, TagValue.str "2021:07:04 10:00:00")])] "Exif").bind
        (fun s => lookupTag s 36867) :=
  ⟨(c9_write_frame _ "a.jpg").1 "0th" (by decide),
   (c9_write_frame _ "a.jpg").2 36867 (by decide)⟩

/-- Claim C10 (counterexample): with the date tag present but falsy
(empty string) and a non-string comment value, the writer is a no-op, so
the non-string comment is not overwritten as the claim states. -/
theorem c10_nonstring_cex :
    commentLookup (encodeOriginalFilename "a.jpg"
      [("Exif", [(36867, TagValue.str ""), (37510, TagValue.num 5)])])
      = some (TagValue.num 5) ∧
    some (TagValue.num 5) ≠
      some (TagValue.str (charsetMarker ++ ("OriginalFilename: " ++ "a.jpg"))) := by
  decide

/-- Claim C10 (amended): if the stored `UserComment` is present but not a
string, the reader extracts `""` from it, and the writer — given a
non-empty filename and a present, truthy date tag — overwrites it with
`"ASCII\0\0\0OriginalFilename: <fileName>"`. -/
theorem c10_nonstring_amended (c : ExifDict) (fn : String) (v : TagValue)
    (hv : commentLookup c = some v) (hns : TagValue.isStr v = false)
    (hfn : fn ≠ "") (h1 : truthyOpt (dateLookup c) = true) :
    readCommentFilename (commentLookup c) = "" ∧
    commentLookup (encodeOriginalFilename fn c)
      = some (TagValue.str (charsetMarker ++ ("OriginalFilename: " ++ fn))) := by
  constructor
  · rw [hv]
    unfold readCommentFilename
    rw [decodeComment_nonstr hns]
    decide
  · have h3 : hasAnnotationLine
        (decodeComment (lookupTag ((lookupSection c "Exif").getD []) UserComment)) = false := by
      rw [← commentLookup_eq, hv, decodeComment_nonstr hns]
      decide
    rw [enc_write h1 hfn h3, commentLookup_setSection, lookupTag_setTag_self,
      ← commentLookup_eq, hv, decodeComment_nonstr hns]
    rw [show appendAnnotationLine "" fn = "OriginalFilename: " ++ fn from rfl]

/-- Witness for C10 at a concrete container with a numeric comment. -/
theorem c10_nonstring_witness :
    readCommentFilename (commentLookup
      [("Exif", [(36867, TagValue.str "d"), (37510, TagValue.num 5)])]) = "" ∧
    commentLookup (encodeOriginalFilename "a.jpg"
      [("Exif", [(36867, TagValue.str "d"), (37510, TagValue.num 5)])])
      = some (TagValue.str (charsetMarker ++ ("OriginalFilename: " ++ "a.jpg"))) :=
  c10_nonstring_amended _ _ (TagValue.num 5) (by decide) (by decide) (by decide) (by decide)
